import Mathlib

/-!
Shallow embedding of the `gerenciadorComandos` Arduino sketch
(`gerenciadorComandos.ino`, `gerenciadorComandos/gerenciadorComandos.{h,cpp}`).

Modelling conventions:
* Arduino `String` values are modelled as `List Char`; string literals are
  injected with `chars`.
* The C global state (`piscarAtivo`, `tempoAnteriorLigado`,
  `tempoAnteriorDesligado`, `numPiscadasRestantes`, `tempoLigadoAtual`,
  `tempoDesligadoAtual`), together with the output latch of the LED pin and
  the text written to `Serial`, is collected in one record `SysState` that is
  threaded through the handlers and the loop body explicitly.
* `millis()` is an `unsigned long` (32-bit on the AVR target); its wrapping
  subtraction in the elapsed-time comparisons is modelled exactly
  (`ulongSub`, arithmetic mod 2^32).  One evaluation of the tick logic is
  modelled with a single clock reading `now` (the source calls `millis()`
  several times inside one iteration; the sub-millisecond drift between those
  calls is not observable by any property treated here).
* C `int` fields are modelled as `Int` (they can be negative: `-1` encodes
  "blink forever").  16-bit overflow of `int` is not modelled: no property
  below exercises values anywhere near the overflow range.
* `comando.numValores` is a C `int` that the source only ever sets from a
  loop counter running from 0 to `maxValores`; it is modelled as `Nat`.
* Each `Serial.print` / `Serial.println` call appends one element to
  `serialOut` (newline handling is not observable at this level).
* `digitalRead(ledPin)` on an output pin returns the last level written, so
  the pin is modelled by the Boolean `ledLevel` (`true` = `HIGH`).  The pin
  writes performed by one tick evaluation are additionally returned as an
  explicit trace (`List Bool`) so that "performs no GPIO write" is directly
  statable.
-/

/-- Inject a Lean string literal as the character list modelling an Arduino
`String`. -/
def chars (s : String) : List Char := s.data

/-- The whitespace test used by Arduino `String::trim` (C `isspace`). -/
def isSpaceChar (c : Char) : Bool :=
  c = ' ' || c = '\t' || c = '\n' || c = '\x0b' || c = '\x0c' || c = '\r'

/-- Arduino `String::trim`: remove leading and trailing `isspace` characters. -/
def trim (s : List Char) : List Char :=
  ((s.dropWhile isSpaceChar).reverse.dropWhile isSpaceChar).reverse

/-- Arduino `String::indexOf(' ')`: position of the first space character,
`none` for the C result `-1`.  Note: only the space character `' '` is a
separator here; `trim` (above) removes any whitespace. -/
def indexOfSpace : List Char → Option Nat
  | [] => none
  | c :: cs => if c = ' ' then some 0 else (indexOfSpace cs).map (· + 1)

/-- `Comando::maxValores` (gerenciadorComandos.h, line 42). -/
def maxValores : Nat := 5

/-- The struct `Comando` (gerenciadorComandos.h, lines 40-46).  `valores`
always has length `maxValores` = 5; slots at or beyond `numValores` hold the
empty string, exactly as the parser initialises them. -/
structure Comando where
  nome : List Char
  valores : List (List Char)
  numValores : Nat
deriving Repr, DecidableEq

/-- Pad a token list with empty strings up to `maxValores` slots, modelling
the initialisation loop of `analisarComando` (lines 263-265 of the .cpp). -/
def padValores (ts : List (List Char)) : List (List Char) :=
  ts ++ List.replicate (maxValores - ts.length) []

/-- The value-reading `while` loop of `analisarComando` (.cpp lines 281-296):
repeatedly take the text before the next space and fully re-trim what
follows, stopping after `maxValores` tokens or when the text is exhausted.
The first argument is the remaining loop capacity (`maxValores - i`). -/
def lerValores : Nat → List Char → List (List Char)
  | 0, _ => []
  | Nat.succ k, s =>
    if s.length = 0 then []
    else
      match indexOfSpace s with
      | some pos => s.take pos :: lerValores k (trim (s.drop (pos + 1)))
      | none => [s]

/-- `gerenciadorComando::analisarComando` (.cpp lines 253-302). -/
def analisarComando (comandoRecebido : List Char) : Comando :=
  let cr := trim comandoRecebido
  if cr.length = 0 then ⟨[], padValores [], 0⟩
  else
    match indexOfSpace cr with
    | some pos =>
      let toks := lerValores maxValores (trim (cr.drop (pos + 1)))
      ⟨cr.take pos, padValores toks, toks.length⟩
    | none => ⟨cr, padValores [], 0⟩

/-- Digit-accumulation part of AVR `atol`, which underlies Arduino
`String::toInt`: consume decimal digits, stop at the first non-digit. -/
def digitsToNat : List Char → Nat → Nat
  | [], acc => acc
  | c :: cs, acc =>
    if c.isDigit then digitsToNat cs (acc * 10 + (c.toNat - 48)) else acc

/-- Arduino `String::toInt` (AVR `atol`): skip leading whitespace, then an
optional sign, then decimal digits; a string with no usable digits converts
to 0.  (`long` overflow is not modelled; no claim exercises it.) -/
def toInt (s : List Char) : Int :=
  let t := s.dropWhile isSpaceChar
  match t with
  | '-' :: rest => -(digitsToNat rest 0 : Int)
  | '+' :: rest => (digitsToNat rest 0 : Int)
  | _ => (digitsToNat t 0 : Int)

/-- The whole observable machine state: the LED pin latch, the six C globals
of the blink controller (.cpp lines 42-47) and the serial output transcript. -/
structure SysState where
  ledLevel : Bool
  piscarAtivo : Bool
  tempoAnteriorLigado : Nat
  tempoAnteriorDesligado : Nat
  numPiscadasRestantes : Int
  tempoLigadoAtual : Int
  tempoDesligadoAtual : Int
  serialOut : List String
deriving Repr, DecidableEq

/-- 2^32, the modulus of `unsigned long` arithmetic on the AVR target. -/
def M32 : Nat := 4294967296

/-- Conversion of a C `int` operand to `unsigned long`, as performed by the
usual arithmetic conversions in `millis() - t >= dur`. -/
def ulongOfInt (x : Int) : Nat := (x % (4294967296 : Int)).toNat

/-- `unsigned long` subtraction `a - b` (wrapping, mod 2^32). -/
def ulongSub (a b : Nat) : Nat := (a % M32 + M32 - b % M32) % M32

/-- The elapsed-time comparison `millis() - prev >= dur` of the loop
(gerenciadorComandos.ino lines 70 and 78). -/
def elapsedGE (now prev : Nat) (dur : Int) : Bool :=
  decide (ulongOfInt dur ≤ ulongSub now prev)

/-- State after the initialisation in `setup()` together with the global
initialisers of the .cpp (lines 42-47): pin low, blinking off. -/
def initialState : SysState :=
  { ledLevel := false
    piscarAtivo := false
    tempoAnteriorLigado := 0
    tempoAnteriorDesligado := 0
    numPiscadasRestantes := 0
    tempoLigadoAtual := 1000
    tempoDesligadoAtual := 1000
    serialOut := [] }

/-- Handler `tratarStatus` (.cpp lines 52-67). -/
def tratarStatus (s : SysState) (_now : Nat) (cmd : Comando) : SysState :=
  if cmd.numValores ≠ 0 then
    { s with serialOut := s.serialOut ++
        ["Erro: O comando \x27status\x27 não aceita parâmetros.",
         "Número de parâmetros fornecidos: ", toString cmd.numValores] }
  else
    { s with serialOut := s.serialOut ++ ["online"] }

/-- Handler `tratarLigarLed` (.cpp lines 70-85). -/
def tratarLigarLed (s : SysState) (_now : Nat) (cmd : Comando) : SysState :=
  if cmd.numValores ≠ 0 then
    { s with serialOut := s.serialOut ++
        ["Erro: O comando \x27ligarLed\x27 não espera nenhum parâmetro.",
         "Número de parâmetros fornecidos: ", toString cmd.numValores] }
  else
    { s with piscarAtivo := false, ledLevel := true }

/-- Handler `tratarPiscarLed` (.cpp lines 88-187).  Faithful points: the
flag `piscarAtivo` is set first and reset on every error path; in the 2- and
3-argument branches the duration globals are assigned before the validity
checks run; only `tempoAnteriorLigado` is stamped on success. -/
def tratarPiscarLed (s : SysState) (now : Nat) (cmd : Comando) : SysState :=
  let s1 := { s with piscarAtivo := true }
  if cmd.numValores = 0 then
    { s1 with tempoLigadoAtual := 1000, tempoDesligadoAtual := 1000,
              numPiscadasRestantes := -1,
              tempoAnteriorLigado := now % M32 }
  else if cmd.numValores = 1 then
    let numPiscadas := toInt (cmd.valores.getD 0 [])
    if numPiscadas ≤ 0 then
      { s1 with piscarAtivo := false, serialOut := s1.serialOut ++
          ["Erro: O número de piscadas deve ser maior que zero."] }
    else
      { s1 with tempoLigadoAtual := 1000, tempoDesligadoAtual := 1000,
                numPiscadasRestantes := numPiscadas * 2,
                tempoAnteriorLigado := now % M32 }
  else if cmd.numValores = 2 then
    let s2 := { s1 with tempoLigadoAtual := toInt (cmd.valores.getD 0 []),
                        tempoDesligadoAtual := toInt (cmd.valores.getD 1 []) }
    if s2.tempoLigadoAtual ≤ 0 ∨ s2.tempoDesligadoAtual ≤ 0 then
      { s2 with piscarAtivo := false, serialOut := s2.serialOut ++
          ["Erro: Os valores de tempo devem ser maiores que zero."] }
    else
      { s2 with numPiscadasRestantes := -1,
                tempoAnteriorLigado := now % M32 }
  else if cmd.numValores = 3 then
    let numPiscadas := toInt (cmd.valores.getD 0 [])
    let s2 := { s1 with tempoLigadoAtual := toInt (cmd.valores.getD 1 []),
                        tempoDesligadoAtual := toInt (cmd.valores.getD 2 []) }
    if numPiscadas ≤ 0 then
      { s2 with piscarAtivo := false, serialOut := s2.serialOut ++
          ["Erro: O número de piscadas deve ser maior que zero."] }
    else if s2.tempoLigadoAtual ≤ 0 ∨ s2.tempoDesligadoAtual ≤ 0 then
      { s2 with piscarAtivo := false, serialOut := s2.serialOut ++
          ["Erro: Os valores de tempo devem ser maiores que zero."] }
    else
      { s2 with numPiscadasRestantes := numPiscadas * 2,
                tempoAnteriorLigado := now % M32 }
  else
    { s1 with piscarAtivo := false, serialOut := s1.serialOut ++
        ["Erro: O comando \x27piscarLed\x27 espera 0, 1, 2 ou 3 parâmetros."] }

/-- Handler `tratarDesligarLed` (.cpp lines 190-206). -/
def tratarDesligarLed (s : SysState) (_now : Nat) (cmd : Comando) : SysState :=
  if cmd.numValores ≠ 0 then
    { s with serialOut := s.serialOut ++
        ["Erro: O comando \x27desligarLed\x27 não espera nenhum parâmetro.",
         "Número de parâmetros fornecidos: ", toString cmd.numValores] }
  else
    { s with ledLevel := false, piscarAtivo := false }

/-- Handler `tratarAjuda` (.cpp lines 210-235). -/
def tratarAjuda (s : SysState) (_now : Nat) (cmd : Comando) : SysState :=
  if cmd.numValores ≠ 0 then
    { s with serialOut := s.serialOut ++
        ["Erro: A função \x27ajuda\x27 não espera nenhum parâmetro.",
         "Número de parâmetros fornecidos: ", toString cmd.numValores] }
  else
    { s with serialOut := s.serialOut ++
        ["Lista de Comandos:",
         "------------------",
         "status: Exibe o estado atual do sistema.",
         "ligarLed: Liga o LED continuamente.",
         "desligarLed: Desliga o LED.",
         "piscarLed:",
         "  Pisca o LED com diferentes configurações:",
         "  - Sem parâmetros: Pisca indefinidamente com 1 segundo ligado e 1 segundo desligado.",
         "  - <numPiscadas>: Pisca o LED o número especificado de vezes, com 1 segundo ligado e 1 segundo desligado.",
         "  - <tempoLigado> <tempoDesligado>: Pisca indefinidamente com os tempos fornecidos (em milissegundos).",
         "  - <numPiscadas> <tempoLigado> <tempoDesligado>: Pisca o LED <numPiscadas> vezes com os tempos fornecidos (em milissegundos).",
         "ajuda: Exibe esta lista de comandos.",
         "------------------"] }

/-- `gerenciadorComando::tabelaComandos` (.cpp lines 238-251); the `nullptr`
sentinel is modelled by the end of the list. -/
def tabelaComandos : List (List Char × (SysState → Nat → Comando → SysState)) :=
  [(chars "status", tratarStatus),
   (chars "ligarLed", tratarLigarLed),
   (chars "piscarLed", tratarPiscarLed),
   (chars "desligarLed", tratarDesligarLed),
   (chars "ajuda", tratarAjuda)]

/-- The table-scanning `for` loop of `processarComando` (.cpp lines 307-325):
first matching entry wins; falling off the end prints the invalid-command
diagnostic. -/
def buscarComando (tabela : List (List Char × (SysState → Nat → Comando → SysState)))
    (s : SysState) (now : Nat) (cmd : Comando) : SysState :=
  match tabela with
  | [] =>
    { s with serialOut := s.serialOut ++
        ["ERRO: Comando inválido: ", String.mk cmd.nome,
         "Digite \x27ajuda\x27 para listar os comandos disponíveis."] }
  | (nome, funcao) :: resto =>
    if cmd.nome = nome then funcao s now cmd else buscarComando resto s now cmd

/-- `gerenciadorComando::processarComando` (.cpp lines 304-326). -/
def processarComando (s : SysState) (now : Nat) (cmd : Comando) : SysState :=
  buscarComando tabelaComandos s now cmd

/-- The conditional decrement of `numPiscadasRestantes` performed after each
phase transition (.ino lines 73-75 and 81-83). -/
def decPiscadas (n : Int) : Int := if 0 < n then n - 1 else n

/-- One evaluation of the blink-control block at the bottom of `loop()`
(.ino lines 68-89), at clock reading `now`.  Returns the new state together
with the trace of `digitalWrite` calls performed (the written levels). -/
def tick (s : SysState) (now : Nat) : SysState × List Bool :=
  if s.piscarAtivo then
    let p :=
      if s.ledLevel = false then
        if elapsedGE now s.tempoAnteriorDesligado s.tempoDesligadoAtual then
          ({ s with ledLevel := true,
                    tempoAnteriorLigado := now % M32,
                    numPiscadasRestantes := decPiscadas s.numPiscadasRestantes },
           [true])
        else (s, [])
      else
        if elapsedGE now s.tempoAnteriorLigado s.tempoLigadoAtual then
          ({ s with ledLevel := false,
                    tempoAnteriorDesligado := now % M32,
                    numPiscadasRestantes := decPiscadas s.numPiscadasRestantes },
           [false])
        else (s, [])
    if p.1.numPiscadasRestantes = 0 then
      ({ p.1 with piscarAtivo := false }, p.2)
    else p
  else (s, [])

/-- Run the tick once per loop iteration for each clock reading in `ms`,
accumulating the total number of pin writes (phase transitions). -/
def runTicks : SysState → List Nat → SysState × Nat
  | s, [] => (s, 0)
  | s, m :: ms =>
    let p := tick s m
    let q := runTicks p.1 ms
    (q.1, p.2.length + q.2)

/-! ### Helper lemmas about the dispatcher scan -/

/-- Scanning past a non-matching table entry. -/
theorem buscarComando_ne {cmd : Comando} (nome : List Char)
    (f : SysState → Nat → Comando → SysState)
    (resto : List (List Char × (SysState → Nat → Comando → SysState)))
    (s : SysState) (now : Nat) (h : cmd.nome ≠ nome) :
    buscarComando ((nome, f) :: resto) s now cmd = buscarComando resto s now cmd := by
  simp [buscarComando, h]

/-- Scanning hits a matching table entry. -/
theorem buscarComando_eq {cmd : Comando} (nome : List Char)
    (f : SysState → Nat → Comando → SysState)
    (resto : List (List Char × (SysState → Nat → Comando → SysState)))
    (s : SysState) (now : Nat) (h : cmd.nome = nome) :
    buscarComando ((nome, f) :: resto) s now cmd = f s now cmd := by
  simp [buscarComando, h]

/-! ### Claims about the tick (blink state machine) -/

/-- The conditional decrement changes the counter by at most one. -/
theorem decPiscadas_cases (n : Int) : decPiscadas n = n ∨ decPiscadas n = n - 1 := by
  unfold decPiscadas
  split
  · exact Or.inr rfl
  · exact Or.inl rfl

/-- C2: when the active flag is false, one tick evaluation performs no GPIO
write and leaves the state untouched; and whenever `numPiscadasRestantes` is
exactly 0 by the end of a tick evaluation (in particular when it was already
0 before it), the active flag is false at the end of that evaluation. -/
theorem tick_idle_noop_and_zero_stops :
    (∀ (s : SysState) (m : Nat), s.piscarAtivo = false → tick s m = (s, [])) ∧
    (∀ (s : SysState) (m : Nat), (tick s m).1.numPiscadasRestantes = 0 →
      (tick s m).1.piscarAtivo = false) := by
  constructor
  · intro s m h
    simp [tick, h]
  · intro s m h
    by_cases ha : s.piscarAtivo
    · by_cases hl : s.ledLevel = false
      · by_cases he : elapsedGE m s.tempoAnteriorDesligado s.tempoDesligadoAtual
        · by_cases hz : decPiscadas s.numPiscadasRestantes = 0
          · simp [tick, ha, hl, he, hz]
          · simp [tick, ha, hl, he, hz] at h
        · by_cases hz : s.numPiscadasRestantes = 0
          · simp [tick, ha, hl, he, hz]
          · simp [tick, ha, hl, he, hz] at h
      · by_cases he : elapsedGE m s.tempoAnteriorLigado s.tempoLigadoAtual
        · by_cases hz : decPiscadas s.numPiscadasRestantes = 0
          · simp [tick, ha, hl, he, hz]
          · simp [tick, ha, hl, he, hz] at h
        · by_cases hz : s.numPiscadasRestantes = 0
          · simp [tick, ha, hl, he, hz]
          · simp [tick, ha, hl, he, hz] at h
    · simp [tick, ha]

/-- Witness for `tick_idle_noop_and_zero_stops` at concrete inputs. -/
theorem tick_idle_noop_and_zero_stops_witness :
    tick initialState 5 = (initialState, []) ∧
    (tick initialState 7).1.piscarAtivo = false :=
  ⟨tick_idle_noop_and_zero_stops.1 initialState 5 rfl,
   tick_idle_noop_and_zero_stops.2 initialState 7 (by decide)⟩

/-- C9: one tick evaluation performs at most one pin write, decrements
`numPiscadasRestantes` at most once, and changes the LED level only when it
performs a write — regardless of how many configured periods the elapsed
time spans. -/
theorem tick_at_most_one_transition :
    ∀ (s : SysState) (m : Nat),
      (tick s m).2.length ≤ 1 ∧
      ((tick s m).1.numPiscadasRestantes = s.numPiscadasRestantes ∨
        (tick s m).1.numPiscadasRestantes = s.numPiscadasRestantes - 1) ∧
      ((tick s m).1.ledLevel = s.ledLevel ∨ (tick s m).2.length = 1) := by
  intro s m
  by_cases ha : s.piscarAtivo
  · by_cases hl : s.ledLevel = false
    · by_cases he : elapsedGE m s.tempoAnteriorDesligado s.tempoDesligadoAtual
      · by_cases hz : decPiscadas s.numPiscadasRestantes = 0
        · simp [tick, ha, hl, he, hz]
          rcases decPiscadas_cases s.numPiscadasRestantes with hc | hc <;>
            rw [hz] at hc <;> omega
        · simp [tick, ha, hl, he, hz]
          exact decPiscadas_cases _
      · by_cases hz : s.numPiscadasRestantes = 0 <;>
          simp [tick, ha, hl, he, hz]
    · by_cases he : elapsedGE m s.tempoAnteriorLigado s.tempoLigadoAtual
      · by_cases hz : decPiscadas s.numPiscadasRestantes = 0
        · simp [tick, ha, hl, he, hz]
          rcases decPiscadas_cases s.numPiscadasRestantes with hc | hc <;>
            rw [hz] at hc <;> omega
        · simp [tick, ha, hl, he, hz]
          exact decPiscadas_cases _
      · by_cases hz : s.numPiscadasRestantes = 0 <;>
          simp [tick, ha, hl, he, hz]
  · simp [tick, ha]

/-! ### Claims about command dispatch -/

/-- C5: a command whose name matches no table entry (the empty name
included) only appends the invalid-command diagnostic — the unrecognized
name and the help hint — to the serial output, every other component of the
state being returned unchanged; the dispatcher is a total function, so it
returns normally. -/
theorem unknown_command_diagnostic_only
    (s : SysState) (now : Nat) (cmd : Comando)
    (h : cmd.nome ∉ [chars "status", chars "ligarLed", chars "piscarLed",
                     chars "desligarLed", chars "ajuda"]) :
    processarComando s now cmd =
      { s with serialOut := s.serialOut ++
          ["ERRO: Comando inválido: ", String.mk cmd.nome,
           "Digite \x27ajuda\x27 para listar os comandos disponíveis."] } := by
  simp only [List.mem_cons, List.not_mem_nil, or_false, not_or] at h
  obtain ⟨h1, h2, h3, h4, h5⟩ := h
  show buscarComando tabelaComandos s now cmd = _
  rw [tabelaComandos, buscarComando_ne _ _ _ _ _ h1, buscarComando_ne _ _ _ _ _ h2,
      buscarComando_ne _ _ _ _ _ h3, buscarComando_ne _ _ _ _ _ h4,
      buscarComando_ne _ _ _ _ _ h5]
  rfl

/-- Witness for `unknown_command_diagnostic_only`: the empty input line
parses to the empty name, which dispatches to the diagnostic only. -/
theorem unknown_command_diagnostic_only_witness :
    processarComando initialState 0 (analisarComando (chars "")) =
      { initialState with serialOut := initialState.serialOut ++
          ["ERRO: Comando inválido: ", String.mk (analisarComando (chars "")).nome,
           "Digite \x27ajuda\x27 para listar os comandos disponíveis."] } :=
  unknown_command_diagnostic_only initialState 0 (analisarComando (chars "")) (by decide)

/-- C6: each of the four 0-argument commands, dispatched with at least one
argument, only appends its arity diagnostic — which reports the received
argument count — to the serial output; the LED level, the blink flag, the
duration fields, the counter and the timestamps are all returned unchanged. -/
theorem zero_arity_mismatch_no_mutation
    (s : SysState) (now : Nat) (cmd : Comando) (h : cmd.numValores ≠ 0) :
    (cmd.nome = chars "status" → processarComando s now cmd =
      { s with serialOut := s.serialOut ++
          ["Erro: O comando \x27status\x27 não aceita parâmetros.",
           "Número de parâmetros fornecidos: ", toString cmd.numValores] }) ∧
    (cmd.nome = chars "ligarLed" → processarComando s now cmd =
      { s with serialOut := s.serialOut ++
          ["Erro: O comando \x27ligarLed\x27 não espera nenhum parâmetro.",
           "Número de parâmetros fornecidos: ", toString cmd.numValores] }) ∧
    (cmd.nome = chars "desligarLed" → processarComando s now cmd =
      { s with serialOut := s.serialOut ++
          ["Erro: O comando \x27desligarLed\x27 não espera nenhum parâmetro.",
           "Número de parâmetros fornecidos: ", toString cmd.numValores] }) ∧
    (cmd.nome = chars "ajuda" → processarComando s now cmd =
      { s with serialOut := s.serialOut ++
          ["Erro: A função \x27ajuda\x27 não espera nenhum parâmetro.",
           "Número de parâmetros fornecidos: ", toString cmd.numValores] }) := by
  refine ⟨fun hn => ?_, fun hn => ?_, fun hn => ?_, fun hn => ?_⟩ <;>
    show buscarComando tabelaComandos s now cmd = _
  · rw [tabelaComandos, buscarComando_eq _ _ _ _ _ hn]
    simp [tratarStatus, h]
  · rw [tabelaComandos, buscarComando_ne _ _ _ _ _ (by rw [hn]; decide),
        buscarComando_eq _ _ _ _ _ hn]
    simp [tratarLigarLed, h]
  · rw [tabelaComandos, buscarComando_ne _ _ _ _ _ (by rw [hn]; decide),
        buscarComando_ne _ _ _ _ _ (by rw [hn]; decide),
        buscarComando_ne _ _ _ _ _ (by rw [hn]; decide),
        buscarComando_eq _ _ _ _ _ hn]
    simp [tratarDesligarLed, h]
  · rw [tabelaComandos, buscarComando_ne _ _ _ _ _ (by rw [hn]; decide),
        buscarComando_ne _ _ _ _ _ (by rw [hn]; decide),
        buscarComando_ne _ _ _ _ _ (by rw [hn]; decide),
        buscarComando_ne _ _ _ _ _ (by rw [hn]; decide),
        buscarComando_eq _ _ _ _ _ hn]
    simp [tratarAjuda, h]

/-- Witness for `zero_arity_mismatch_no_mutation`: `status 1` and
`ligarLed 1` leave everything but the transcript unchanged. -/
theorem zero_arity_mismatch_no_mutation_witness :
    processarComando initialState 0 (analisarComando (chars "status 1")) =
      { initialState with serialOut := initialState.serialOut ++
          ["Erro: O comando \x27status\x27 não aceita parâmetros.",
           "Número de parâmetros fornecidos: ",
           toString (analisarComando (chars "status 1")).numValores] } ∧
    processarComando initialState 0 (analisarComando (chars "ligarLed 1")) =
      { initialState with serialOut := initialState.serialOut ++
          ["Erro: O comando \x27ligarLed\x27 não espera nenhum parâmetro.",
           "Número de parâmetros fornecidos: ",
           toString (analisarComando (chars "ligarLed 1")).numValores] } :=
  ⟨(zero_arity_mismatch_no_mutation initialState 0
      (analisarComando (chars "status 1")) (by decide)).1 (by decide),
   (zero_arity_mismatch_no_mutation initialState 0
      (analisarComando (chars "ligarLed 1")) (by decide)).2.1 (by decide)⟩

/-- C10: a non-numeric string as the count or as a duration argument of
`piscarLed` converts to 0, which fails the positivity check exactly like the
literal 0: the resulting state is identical to the non-positive-number case,
a diagnostic is emitted and the blink flag ends false. -/
theorem piscarLed_nonnumeric_like_zero :
    ∀ (s : SysState) (now : Nat),
      toInt (chars "abc") = 0 ∧
      processarComando s now (analisarComando (chars "piscarLed abc")) =
        processarComando s now (analisarComando (chars "piscarLed 0")) ∧
      (processarComando s now (analisarComando (chars "piscarLed abc"))).piscarAtivo
        = false ∧
      (processarComando s now (analisarComando (chars "piscarLed abc"))).serialOut
        = s.serialOut ++ ["Erro: O número de piscadas deve ser maior que zero."] ∧
      processarComando s now (analisarComando (chars "piscarLed abc def")) =
        processarComando s now (analisarComando (chars "piscarLed 0 0")) := by
  intro s now
  exact ⟨rfl, rfl, rfl, rfl, rfl⟩

/-! ### Claims about the start-blink handler -/

/-- C1 counterexample: `piscarLed 0 500` is a validation failure (count and
on-duration not both positive is irrelevant here: the 2-argument form has a
non-positive on-duration), yet the on-duration field does not retain its
prior value 777 — it has been overwritten with 0 before the check ran.  So
the failure does partially apply the new configuration. -/
theorem piscarLed_partial_config_cex :
    (processarComando { initialState with tempoLigadoAtual := 777 } 0
        (analisarComando (chars "piscarLed 0 500"))).piscarAtivo = false ∧
    (processarComando { initialState with tempoLigadoAtual := 777 } 0
        (analisarComando (chars "piscarLed 0 500"))).tempoLigadoAtual = 0 ∧
    ({ initialState with tempoLigadoAtual := 777 } : SysState).tempoLigadoAtual
      = 777 ∧
    (processarComando { initialState with tempoLigadoAtual := 777 } 0
        (analisarComando (chars "piscarLed 0 500"))).tempoDesligadoAtual = 500 ∧
    ({ initialState with tempoLigadoAtual := 777 } : SysState).tempoDesligadoAtual
      = 1000 :=
  ⟨rfl, rfl, rfl, rfl, rfl⟩

/-- C1 amended: every validation failure of `tratarPiscarLed` emits one
diagnostic and leaves the active flag false, and it leaves the LED level,
both timestamps and the transition counter unchanged; but the duration
fields are only preserved by the 1-argument and wrong-arity failures — the
2- and 3-argument forms assign both duration fields from the converted
arguments before validating them. -/
theorem piscarLed_validation_failure
    (s : SysState) (now : Nat) (cmd : Comando)
    (h : (cmd.numValores = 1 ∧ toInt (cmd.valores.getD 0 []) ≤ 0) ∨
         (cmd.numValores = 2 ∧ (toInt (cmd.valores.getD 0 []) ≤ 0 ∨
            toInt (cmd.valores.getD 1 []) ≤ 0)) ∨
         (cmd.numValores = 3 ∧ (toInt (cmd.valores.getD 0 []) ≤ 0 ∨
            toInt (cmd.valores.getD 1 []) ≤ 0 ∨
            toInt (cmd.valores.getD 2 []) ≤ 0)) ∨
         4 ≤ cmd.numValores) :
    (tratarPiscarLed s now cmd).piscarAtivo = false ∧
    (∃ msg, (tratarPiscarLed s now cmd).serialOut = s.serialOut ++ [msg]) ∧
    (tratarPiscarLed s now cmd).numPiscadasRestantes = s.numPiscadasRestantes ∧
    (tratarPiscarLed s now cmd).tempoAnteriorLigado = s.tempoAnteriorLigado ∧
    (tratarPiscarLed s now cmd).tempoAnteriorDesligado = s.tempoAnteriorDesligado ∧
    (tratarPiscarLed s now cmd).ledLevel = s.ledLevel ∧
    (cmd.numValores = 2 →
      (tratarPiscarLed s now cmd).tempoLigadoAtual = toInt (cmd.valores.getD 0 []) ∧
      (tratarPiscarLed s now cmd).tempoDesligadoAtual = toInt (cmd.valores.getD 1 [])) ∧
    (cmd.numValores = 3 →
      (tratarPiscarLed s now cmd).tempoLigadoAtual = toInt (cmd.valores.getD 1 []) ∧
      (tratarPiscarLed s now cmd).tempoDesligadoAtual = toInt (cmd.valores.getD 2 [])) ∧
    (cmd.numValores ≠ 2 → cmd.numValores ≠ 3 →
      (tratarPiscarLed s now cmd).tempoLigadoAtual = s.tempoLigadoAtual ∧
      (tratarPiscarLed s now cmd).tempoDesligadoAtual = s.tempoDesligadoAtual) := by
  rcases h with ⟨hn, hle⟩ | ⟨hn, hle⟩ | ⟨hn, hle⟩ | hn
  · have e : tratarPiscarLed s now cmd =
        { s with piscarAtivo := false, serialOut := s.serialOut ++
            ["Erro: O número de piscadas deve ser maior que zero."] } := by
      simp only [tratarPiscarLed]
      rw [hn]
      rw [if_neg (by decide), if_pos rfl, if_pos hle]
    refine ⟨by simp [e],
      ⟨"Erro: O número de piscadas deve ser maior que zero.", by simp [e]⟩,
      by simp [e], by simp [e], by simp [e], by simp [e],
      fun hh => ?_, fun hh => ?_, fun _ _ => by simp [e]⟩ <;>
      · exfalso; omega
  · have e : tratarPiscarLed s now cmd =
        { s with piscarAtivo := false,
                 tempoLigadoAtual := toInt (cmd.valores.getD 0 []),
                 tempoDesligadoAtual := toInt (cmd.valores.getD 1 []),
                 serialOut := s.serialOut ++
            ["Erro: Os valores de tempo devem ser maiores que zero."] } := by
      simp only [tratarPiscarLed]
      rw [hn]
      rw [if_neg (by decide), if_neg (by decide), if_pos rfl, if_pos hle]
    refine ⟨by simp [e],
      ⟨"Erro: Os valores de tempo devem ser maiores que zero.", by simp [e]⟩,
      by simp [e], by simp [e], by simp [e], by simp [e],
      fun hh => by simp [e], fun hh => ?_, fun hh _ => ?_⟩
    · exfalso; omega
    · exact absurd hn hh
  · by_cases h0 : toInt (cmd.valores.getD 0 []) ≤ 0
    · have e : tratarPiscarLed s now cmd =
          { s with piscarAtivo := false,
                   tempoLigadoAtual := toInt (cmd.valores.getD 1 []),
                   tempoDesligadoAtual := toInt (cmd.valores.getD 2 []),
                   serialOut := s.serialOut ++
              ["Erro: O número de piscadas deve ser maior que zero."] } := by
        simp only [tratarPiscarLed]
        rw [hn]
        rw [if_neg (by decide), if_neg (by decide), if_neg (by decide),
            if_pos rfl, if_pos h0]
      refine ⟨by simp [e],
        ⟨"Erro: O número de piscadas deve ser maior que zero.", by simp [e]⟩,
        by simp [e], by simp [e], by simp [e], by simp [e],
        fun hh => ?_, fun hh => by simp [e], fun _ hh => ?_⟩
      · exfalso; omega
      · exact absurd hn hh
    · have hd : toInt (cmd.valores.getD 1 []) ≤ 0 ∨ toInt (cmd.valores.getD 2 []) ≤ 0 := by
        rcases hle with hle | hle | hle
        · exact absurd hle h0
        · exact Or.inl hle
        · exact Or.inr hle
      have e : tratarPiscarLed s now cmd =
          { s with piscarAtivo := false,
                   tempoLigadoAtual := toInt (cmd.valores.getD 1 []),
                   tempoDesligadoAtual := toInt (cmd.valores.getD 2 []),
                   serialOut := s.serialOut ++
              ["Erro: Os valores de tempo devem ser maiores que zero."] } := by
        simp only [tratarPiscarLed]
        rw [hn]
        rw [if_neg (by decide), if_neg (by decide), if_neg (by decide),
            if_pos rfl, if_neg h0, if_pos hd]
      refine ⟨by simp [e],
        ⟨"Erro: Os valores de tempo devem ser maiores que zero.", by simp [e]⟩,
        by simp [e], by simp [e], by simp [e], by simp [e],
        fun hh => ?_, fun hh => by simp [e], fun _ hh => ?_⟩
      · exfalso; omega
      · exact absurd hn hh
  · have e : tratarPiscarLed s now cmd =
        { s with piscarAtivo := false, serialOut := s.serialOut ++
            ["Erro: O comando \x27piscarLed\x27 espera 0, 1, 2 ou 3 parâmetros."] } := by
      simp only [tratarPiscarLed]
      rw [if_neg (by omega), if_neg (by omega), if_neg (by omega), if_neg (by omega)]
    refine ⟨by simp [e],
      ⟨"Erro: O comando \x27piscarLed\x27 espera 0, 1, 2 ou 3 parâmetros.", by simp [e]⟩,
      by simp [e], by simp [e], by simp [e], by simp [e],
      fun hh => ?_, fun hh => ?_, fun _ _ => by simp [e]⟩ <;>
      · exfalso; omega

/-- Witness for `piscarLed_validation_failure` at a concrete failing
2-argument command. -/
theorem piscarLed_validation_failure_witness :
    (tratarPiscarLed initialState 0 (analisarComando (chars "piscarLed 0 500"))).piscarAtivo
      = false ∧
    (tratarPiscarLed initialState 0
      (analisarComando (chars "piscarLed 0 500"))).numPiscadasRestantes
      = initialState.numPiscadasRestantes :=
  ⟨(piscarLed_validation_failure initialState 0
      (analisarComando (chars "piscarLed 0 500")) (by decide)).1,
   (piscarLed_validation_failure initialState 0
      (analisarComando (chars "piscarLed 0 500")) (by decide)).2.2.1⟩

/-- C4 counterexample: a successful `piscarLed` (no arguments) at time 5000
stamps only the last-on timestamp; the last-off timestamp keeps its stale
value 0, and since the pin is low, the very next tick at time 5001 compares
against that stale value and immediately performs a pin write — not the
behaviour of a phase start recorded at command time (elapsed would be 1 ms,
far below the 1000 ms off-duration). -/
theorem piscarLed_phase_start_cex :
    (processarComando initialState 5000
        (analisarComando (chars "piscarLed"))).tempoAnteriorDesligado = 0 ∧
    (processarComando initialState 5000
        (analisarComando (chars "piscarLed"))).ledLevel = false ∧
    (tick (processarComando initialState 5000
        (analisarComando (chars "piscarLed"))) 5001).2 = [true] := by
  refine ⟨rfl, rfl, ?_⟩
  decide

/-- C4 amended: every successful start-blink sets the duration fields and
the transition counter from its arguments and records the current timestamp
as the last-on timestamp (`tempoAnteriorLigado`) only, leaving the last-off
timestamp unchanged; hence the first subsequent tick compares against the
command time only when the pin is high at that moment, and against the
previously recorded last-off timestamp when it is low. -/
theorem piscarLed_success_sets_config
    (s : SysState) (now : Nat) (cmd : Comando)
    (h : cmd.numValores = 0 ∨
         (cmd.numValores = 1 ∧ 0 < toInt (cmd.valores.getD 0 [])) ∨
         (cmd.numValores = 2 ∧ 0 < toInt (cmd.valores.getD 0 []) ∧
            0 < toInt (cmd.valores.getD 1 [])) ∨
         (cmd.numValores = 3 ∧ 0 < toInt (cmd.valores.getD 0 []) ∧
            0 < toInt (cmd.valores.getD 1 []) ∧
            0 < toInt (cmd.valores.getD 2 []))) :
    (tratarPiscarLed s now cmd).piscarAtivo = true ∧
    (tratarPiscarLed s now cmd).tempoAnteriorLigado = now % M32 ∧
    (tratarPiscarLed s now cmd).tempoAnteriorDesligado = s.tempoAnteriorDesligado ∧
    (tratarPiscarLed s now cmd).ledLevel = s.ledLevel ∧
    (tratarPiscarLed s now cmd).serialOut = s.serialOut ∧
    (cmd.numValores = 0 →
      (tratarPiscarLed s now cmd).tempoLigadoAtual = 1000 ∧
      (tratarPiscarLed s now cmd).tempoDesligadoAtual = 1000 ∧
      (tratarPiscarLed s now cmd).numPiscadasRestantes = -1) ∧
    (cmd.numValores = 1 →
      (tratarPiscarLed s now cmd).tempoLigadoAtual = 1000 ∧
      (tratarPiscarLed s now cmd).tempoDesligadoAtual = 1000 ∧
      (tratarPiscarLed s now cmd).numPiscadasRestantes
        = toInt (cmd.valores.getD 0 []) * 2) ∧
    (cmd.numValores = 2 →
      (tratarPiscarLed s now cmd).tempoLigadoAtual = toInt (cmd.valores.getD 0 []) ∧
      (tratarPiscarLed s now cmd).tempoDesligadoAtual = toInt (cmd.valores.getD 1 []) ∧
      (tratarPiscarLed s now cmd).numPiscadasRestantes = -1) ∧
    (cmd.numValores = 3 →
      (tratarPiscarLed s now cmd).tempoLigadoAtual = toInt (cmd.valores.getD 1 []) ∧
      (tratarPiscarLed s now cmd).tempoDesligadoAtual = toInt (cmd.valores.getD 2 []) ∧
      (tratarPiscarLed s now cmd).numPiscadasRestantes
        = toInt (cmd.valores.getD 0 []) * 2) := by
  rcases h with hn | ⟨hn, hp⟩ | ⟨hn, hp1, hp2⟩ | ⟨hn, hp0, hp1, hp2⟩
  · have e : tratarPiscarLed s now cmd =
        { s with piscarAtivo := true, tempoLigadoAtual := 1000,
                 tempoDesligadoAtual := 1000, numPiscadasRestantes := -1,
                 tempoAnteriorLigado := now % M32 } := by
      simp only [tratarPiscarLed]
      rw [hn]
      rw [if_pos rfl]
    refine ⟨by simp [e], by simp [e], by simp [e], by simp [e], by simp [e],
      fun _ => by simp [e], fun hh => ?_, fun hh => ?_, fun hh => ?_⟩ <;>
      · exfalso; omega
  · have e : tratarPiscarLed s now cmd =
        { s with piscarAtivo := true, tempoLigadoAtual := 1000,
                 tempoDesligadoAtual := 1000,
                 numPiscadasRestantes := toInt (cmd.valores.getD 0 []) * 2,
                 tempoAnteriorLigado := now % M32 } := by
      simp only [tratarPiscarLed]
      rw [hn]
      rw [if_neg (by decide), if_pos rfl, if_neg (by omega)]
    refine ⟨by simp [e], by simp [e], by simp [e], by simp [e], by simp [e],
      fun hh => ?_, fun _ => by simp [e], fun hh => ?_, fun hh => ?_⟩ <;>
      · exfalso; omega
  · have e : tratarPiscarLed s now cmd =
        { s with piscarAtivo := true,
                 tempoLigadoAtual := toInt (cmd.valores.getD 0 []),
                 tempoDesligadoAtual := toInt (cmd.valores.getD 1 []),
                 numPiscadasRestantes := -1,
                 tempoAnteriorLigado := now % M32 } := by
      simp only [tratarPiscarLed]
      rw [hn]
      rw [if_neg (by decide), if_neg (by decide), if_pos rfl, if_neg (by omega)]
    refine ⟨by simp [e], by simp [e], by simp [e], by simp [e], by simp [e],
      fun hh => ?_, fun hh => ?_, fun _ => by simp [e], fun hh => ?_⟩ <;>
      · exfalso; omega
  · have e : tratarPiscarLed s now cmd =
        { s with piscarAtivo := true,
                 tempoLigadoAtual := toInt (cmd.valores.getD 1 []),
                 tempoDesligadoAtual := toInt (cmd.valores.getD 2 []),
                 numPiscadasRestantes := toInt (cmd.valores.getD 0 []) * 2,
                 tempoAnteriorLigado := now % M32 } := by
      simp only [tratarPiscarLed]
      rw [hn]
      rw [if_neg (by decide), if_neg (by decide), if_neg (by decide),
          if_pos rfl, if_neg (by omega), if_neg (by omega)]
    refine ⟨by simp [e], by simp [e], by simp [e], by simp [e], by simp [e],
      fun hh => ?_, fun hh => ?_, fun hh => ?_, fun _ => by simp [e]⟩ <;>
      · exfalso; omega

/-- Witness for `piscarLed_success_sets_config` at the concrete command
`piscarLed 5 1000 500`. -/
theorem piscarLed_success_sets_config_witness :
    (tratarPiscarLed initialState 42
        (analisarComando (chars "piscarLed 5 1000 500"))).piscarAtivo = true ∧
    (tratarPiscarLed initialState 42
        (analisarComando (chars "piscarLed 5 1000 500"))).tempoAnteriorLigado
      = 42 % M32 ∧
    (tratarPiscarLed initialState 42
        (analisarComando (chars "piscarLed 5 1000 500"))).tempoAnteriorDesligado
      = initialState.tempoAnteriorDesligado :=
  ⟨(piscarLed_success_sets_config initialState 42
      (analisarComando (chars "piscarLed 5 1000 500")) (by decide)).1,
   (piscarLed_success_sets_config initialState 42
      (analisarComando (chars "piscarLed 5 1000 500")) (by decide)).2.1,
   (piscarLed_success_sets_config initialState 42
      (analisarComando (chars "piscarLed 5 1000 500")) (by decide)).2.2.1⟩

/-! ### Claims about a bounded blink run -/

/-- C3 counterexample: starting `piscarLed 5` while the LED pin is high
(e.g. right after `ligarLed`) still produces exactly 10 transitions before
the machine goes idle, but the final observed level is HIGH, not off — the
transitions alternate starting from an on-to-off change, and 10 is even, so
the final level equals the level at command time. -/
theorem piscarLed5_final_level_cex :
    (runTicks (processarComando { initialState with ledLevel := true } 0
        (analisarComando (chars "piscarLed 5")))
      [1000, 2000, 3000, 4000, 5000, 6000, 7000, 8000, 9000, 10000]).2 = 10 ∧
    (runTicks (processarComando { initialState with ledLevel := true } 0
        (analisarComando (chars "piscarLed 5")))
      [1000, 2000, 3000, 4000, 5000, 6000, 7000, 8000, 9000, 10000]).1.piscarAtivo
      = false ∧
    (runTicks (processarComando { initialState with ledLevel := true } 0
        (analisarComando (chars "piscarLed 5")))
      [1000, 2000, 3000, 4000, 5000, 6000, 7000, 8000, 9000, 10000]).1.ledLevel
      = true := by
  refine ⟨?_, ?_, ?_⟩ <;> decide

/-- Clock sequences driving a liveness argument: every reading is at least
one full configured period (1000 ms) past the bound on all timestamps
recorded so far, and stays below the 2^32 wrap of `millis()`. -/
def ClockOk : Nat → List Nat → Prop
  | _, [] => True
  | B, m :: ms => B + 1000 ≤ m ∧ m < M32 ∧ ClockOk m ms

/-- Invariant carried through a bounded blink run: `n` is the number of
transitions still due. With `n = 0` the machine is idle; otherwise it is
active with counter `n`, the default 1000/1000 durations, and both
timestamps bounded by `B`. -/
def BlinkInv (s : SysState) (n B : Nat) : Prop :=
  match n with
  | 0 => s.piscarAtivo = false
  | k + 1 =>
    s.piscarAtivo = true ∧ s.numPiscadasRestantes = ((k + 1 : Nat) : Int) ∧
    s.tempoLigadoAtual = 1000 ∧ s.tempoDesligadoAtual = 1000 ∧
    s.tempoAnteriorLigado ≤ B ∧ s.tempoAnteriorDesligado ≤ B

/-- The elapsed-time comparison holds whenever the clock has moved at least
`dur` past the bound on the recorded timestamp, without wrapping. -/
theorem elapsedGE_holds (t B m : Nat) (dur : Int) (h0 : 0 ≤ dur)
    (hdur : dur < 4294967296) (ht : t ≤ B) (hm : m < M32)
    (hBm : B + dur.toNat ≤ m) : elapsedGE m t dur = true := by
  have hBle : B ≤ m := le_trans (Nat.le_add_right B dur.toNat) hBm
  have htm : t < M32 := lt_of_le_of_lt (le_trans ht hBle) hm
  have h1 : ulongOfInt dur = dur.toNat := by
    unfold ulongOfInt
    rw [Int.emod_eq_of_lt h0 hdur]
  have h2 : ulongSub m t = m - t := by
    unfold ulongSub
    rw [Nat.mod_eq_of_lt hm, Nat.mod_eq_of_lt htm]
    have e1 : m + M32 - t = (m - t) + M32 := by omega
    rw [e1, Nat.add_mod_right, Nat.mod_eq_of_lt (by omega)]
  unfold elapsedGE
  rw [h1, h2]
  simp only [decide_eq_true_eq]
  omega

/-- A tick of an inactive machine is the identity with no pin writes. -/
theorem tick_inactive (s : SysState) (m : Nat) (h : s.piscarAtivo = false) :
    tick s m = (s, []) := by
  simp [tick, h]

/-- A run of ticks from an inactive machine performs no transitions. -/
theorem runTicks_inactive (ms : List Nat) (s : SysState)
    (h : s.piscarAtivo = false) : runTicks s ms = (s, 0) := by
  induction ms with
  | nil => rfl
  | cons m ms ih => simp [runTicks, tick_inactive s m h, ih]

/-- Under the invariant with `k + 1` transitions due and an admissible clock
reading, one tick performs exactly one transition: it flips the level,
writes exactly that level, and re-establishes the invariant for `k`. -/
theorem tick_blink_step (s : SysState) (m B k : Nat)
    (hInv : BlinkInv s (k + 1) B) (hm1 : B + 1000 ≤ m) (hm2 : m < M32) :
    (tick s m).2 = [!s.ledLevel] ∧
    (tick s m).1.ledLevel = !s.ledLevel ∧
    BlinkInv (tick s m).1 k m := by
  obtain ⟨ha, hrem, hton, htoff, htl, htd⟩ := hInv
  have hdec : decPiscadas s.numPiscadasRestantes = ((k : Nat) : Int) := by
    rw [hrem]
    unfold decPiscadas
    rw [if_pos (by omega)]
    omega
  by_cases hl : s.ledLevel = false
  · have he : elapsedGE m s.tempoAnteriorDesligado s.tempoDesligadoAtual = true := by
      rw [htoff]
      exact elapsedGE_holds s.tempoAnteriorDesligado B m 1000 (by decide) (by decide)
        htd hm2 (by omega)
    cases k with
    | zero =>
      have hs' : tick s m =
          ({ s with ledLevel := true, tempoAnteriorLigado := m % M32,
                    numPiscadasRestantes := 0, piscarAtivo := false }, [true]) := by
        simp [tick, ha, hl, he, hdec]
      rw [hs']
      refine ⟨by simp [hl], by simp [hl], rfl⟩
    | succ j =>
      have hs' : tick s m =
          ({ s with ledLevel := true, tempoAnteriorLigado := m % M32,
                    numPiscadasRestantes := ((j + 1 : Nat) : Int) }, [true]) := by
        simp [tick, ha, hl, he, hdec]
        omega
      rw [hs']
      refine ⟨by simp [hl], by simp [hl],
        ha, rfl, hton, htoff, Nat.mod_le m M32, le_trans htd (by omega)⟩
  · have hlv : s.ledLevel = true := by simpa using hl
    have he : elapsedGE m s.tempoAnteriorLigado s.tempoLigadoAtual = true := by
      rw [hton]
      exact elapsedGE_holds s.tempoAnteriorLigado B m 1000 (by decide) (by decide)
        htl hm2 (by omega)
    cases k with
    | zero =>
      have hs' : tick s m =
          ({ s with ledLevel := false, tempoAnteriorDesligado := m % M32,
                    numPiscadasRestantes := 0, piscarAtivo := false }, [false]) := by
        simp [tick, ha, hl, he, hdec]
      rw [hs']
      refine ⟨by simp [hlv], by simp [hlv], rfl⟩
    | succ j =>
      have hs' : tick s m =
          ({ s with ledLevel := false, tempoAnteriorDesligado := m % M32,
                    numPiscadasRestantes := ((j + 1 : Nat) : Int) }, [false]) := by
        simp [tick, ha, hl, he, hdec]
        omega
      rw [hs']
      refine ⟨by simp [hlv], by simp [hlv],
        ha, rfl, hton, htoff, le_trans htl (by omega), Nat.mod_le m M32⟩

/-- A run of at least `n` admissible ticks from a state with `n` transitions
due performs exactly `n` transitions, ends idle, and ends with the LED at
the starting level exactly when `n` is even. -/
theorem runTicks_blink : ∀ (ms : List Nat) (B : Nat) (s : SysState) (n : Nat),
    BlinkInv s n B → ClockOk B ms → n ≤ ms.length →
    (runTicks s ms).2 = n ∧ (runTicks s ms).1.piscarAtivo = false ∧
    (runTicks s ms).1.ledLevel = (if n % 2 = 0 then s.ledLevel else !s.ledLevel) := by
  intro ms
  induction ms with
  | nil =>
    intro B s n hInv hck hlen
    have hn : n = 0 := Nat.le_zero.mp (by simpa using hlen)
    subst hn
    exact ⟨rfl, hInv, by simp [runTicks]⟩
  | cons m ms ih =>
    intro B s n hInv hck hlen
    obtain ⟨h1, h2, h3⟩ := hck
    cases n with
    | zero =>
      have hr := runTicks_inactive (m :: ms) s hInv
      rw [hr]
      exact ⟨rfl, hInv, by simp⟩
    | succ k =>
      obtain ⟨hw, hlev, hInv'⟩ := tick_blink_step s m B k hInv h1 h2
      obtain ⟨ihc, iha, ihl⟩ := ih m (tick s m).1 k hInv' h3 (by simpa using hlen)
      have hr : runTicks s (m :: ms)
          = ((runTicks (tick s m).1 ms).1, (tick s m).2.length + (runTicks (tick s m).1 ms).2) := by
        simp [runTicks]
      rw [hr]
      refine ⟨by simp [hw, ihc]; omega, iha, ?_⟩
      rw [ihl, hlev]
      by_cases hp : k % 2 = 0
      · rw [if_pos hp, if_neg (by omega)]
      · rw [if_neg hp, if_pos (by omega), Bool.not_not]

/-- An active tick with a nonzero counter either does nothing or performs
exactly one transition, applying the conditional decrement; the machine
stays active exactly while the counter has not hit 0. -/
theorem tick_active (s : SysState) (m : Nat) (ha : s.piscarAtivo = true)
    (hnz : s.numPiscadasRestantes ≠ 0) :
    tick s m = (s, []) ∨
    ((tick s m).2.length = 1 ∧
     (tick s m).1.numPiscadasRestantes = decPiscadas s.numPiscadasRestantes ∧
     ((tick s m).1.piscarAtivo = true ↔ ¬decPiscadas s.numPiscadasRestantes = 0)) := by
  by_cases hl : s.ledLevel = false
  · by_cases he : elapsedGE m s.tempoAnteriorDesligado s.tempoDesligadoAtual
    · right
      by_cases hz : decPiscadas s.numPiscadasRestantes = 0 <;>
        simp [tick, ha, hl, he, hz]
    · left
      simp [tick, ha, hl, he, hnz]
  · by_cases he : elapsedGE m s.tempoAnteriorLigado s.tempoLigadoAtual
    · right
      by_cases hz : decPiscadas s.numPiscadasRestantes = 0 <;>
        simp [tick, ha, hl, he, hz]
    · left
      simp [tick, ha, hl, he, hnz]

/-- Safety: a run started with a positive bounded counter `n` never performs
more than `n` transitions, whatever the clock readings are. -/
theorem runTicks_count_le : ∀ (ms : List Nat) (s : SysState) (n : Nat),
    (s.piscarAtivo = true → s.numPiscadasRestantes = (n : Int) ∧ 1 ≤ n) →
    (runTicks s ms).2 ≤ n := by
  intro ms
  induction ms with
  | nil => intro s n _; simp [runTicks]
  | cons m ms ih =>
    intro s n h
    by_cases ha : s.piscarAtivo
    · obtain ⟨hrem, hn⟩ := h ha
      have hnz : s.numPiscadasRestantes ≠ 0 := by rw [hrem]; omega
      have hr : runTicks s (m :: ms)
          = ((runTicks (tick s m).1 ms).1, (tick s m).2.length + (runTicks (tick s m).1 ms).2) := by
        simp [runTicks]
      rcases tick_active s m ha hnz with ht | ⟨hw, hrem', hact⟩
      · rw [hr, ht]
        have := ih s n h
        simpa [ht] using this
      · have hdec : decPiscadas s.numPiscadasRestantes = ((n - 1 : Nat) : Int) := by
          rw [hrem]
          unfold decPiscadas
          rw [if_pos (by omega)]
          omega
        have hih : (runTicks (tick s m).1 ms).2 ≤ n - 1 := by
          apply ih
          intro ha'
          have hne : ¬decPiscadas s.numPiscadasRestantes = 0 := hact.mp ha'
          rw [hdec] at hne
          constructor
          · rw [hrem', hdec]
          · omega
        rw [hr]
        simp only [hw]
        omega
    · have hfalse : s.piscarAtivo = false := by simpa using ha
      rw [runTicks_inactive (m :: ms) s hfalse]
      exact Nat.zero_le n

/-- C3 amended: after `piscarLed 5` (counter set to 10), every run of at
least 10 ticks along an admissible advancing clock performs exactly 10 pin
transitions and returns to Idle, no run whatever its clock ever exceeds 10
transitions, and the final LED level equals the level the pin had at command
time (so the level is off exactly when it was off when the command ran —
the claim's "final level off" holds only in that case). -/
theorem piscarLed5_exactly_ten_transitions
    (s0 : SysState) (t0 B : Nat) (ms : List Nat)
    (ht0 : t0 ≤ B) (htd : s0.tempoAnteriorDesligado ≤ B)
    (hck : ClockOk B ms) (hlen : 10 ≤ ms.length) :
    (runTicks (processarComando s0 t0 (analisarComando (chars "piscarLed 5"))) ms).2
      = 10 ∧
    (runTicks (processarComando s0 t0
        (analisarComando (chars "piscarLed 5"))) ms).1.piscarAtivo = false ∧
    (runTicks (processarComando s0 t0
        (analisarComando (chars "piscarLed 5"))) ms).1.ledLevel = s0.ledLevel ∧
    (∀ ms2, (runTicks (processarComando s0 t0
        (analisarComando (chars "piscarLed 5"))) ms2).2 ≤ 10) := by
  have hs1 : processarComando s0 t0 (analisarComando (chars "piscarLed 5"))
      = { s0 with piscarAtivo := true, tempoLigadoAtual := 1000,
                  tempoDesligadoAtual := 1000, numPiscadasRestantes := 10,
                  tempoAnteriorLigado := t0 % M32 } := rfl
  rw [hs1]
  have hInv : BlinkInv
      ({ s0 with piscarAtivo := true, tempoLigadoAtual := 1000,
                 tempoDesligadoAtual := 1000, numPiscadasRestantes := 10,
                 tempoAnteriorLigado := t0 % M32 }) 10 B :=
    ⟨rfl, rfl, rfl, rfl, le_trans (Nat.mod_le t0 M32) ht0, htd⟩
  obtain ⟨hc, hact, hlev⟩ := runTicks_blink ms B _ 10 hInv hck hlen
  refine ⟨hc, hact, ?_, ?_⟩
  · simpa using hlev
  · intro ms2
    exact runTicks_count_le ms2 _ 10 (fun _ => ⟨rfl, by omega⟩)

/-- Witness for `piscarLed5_exactly_ten_transitions` along the concrete
clock 1000, 2000, …, 10000 from the initial (pin-low) state. -/
theorem piscarLed5_exactly_ten_transitions_witness :
    (runTicks (processarComando initialState 0 (analisarComando (chars "piscarLed 5")))
      [1000, 2000, 3000, 4000, 5000, 6000, 7000, 8000, 9000, 10000]).2 = 10 ∧
    (runTicks (processarComando initialState 0 (analisarComando (chars "piscarLed 5")))
      [1000, 2000, 3000, 4000, 5000, 6000, 7000, 8000, 9000, 10000]).1.piscarAtivo
      = false ∧
    (runTicks (processarComando initialState 0 (analisarComando (chars "piscarLed 5")))
      [1000, 2000, 3000, 4000, 5000, 6000, 7000, 8000, 9000, 10000]).1.ledLevel
      = initialState.ledLevel ∧
    (runTicks (processarComando initialState 0 (analisarComando (chars "piscarLed 5")))
      [20, 40, 60]).2 ≤ 10 := by
  obtain ⟨h1, h2, h3, h4⟩ := piscarLed5_exactly_ten_transitions initialState 0 0
    [1000, 2000, 3000, 4000, 5000, 6000, 7000, 8000, 9000, 10000]
    (Nat.le_refl 0) (Nat.le_refl 0)
    (by norm_num [ClockOk, M32]) (by norm_num)
  exact ⟨h1, h2, h3, h4 [20, 40, 60]⟩

/-! ### Helper lemmas about trimming and tokenizing -/

/-- The head surviving a `dropWhile` fails the predicate. -/
theorem dropWhile_head_false (p : Char → Bool) :
    ∀ (l : List Char) (c : Char) (t : List Char),
      l.dropWhile p = c :: t → p c = false := by
  intro l
  induction l with
  | nil => intro c t h; simp at h
  | cons a as ih =>
    intro c t h
    by_cases ha : p a = true
    · rw [List.dropWhile_cons, if_pos ha] at h
      exact ih c t h
    · rw [List.dropWhile_cons, if_neg ha] at h
      injection h with h1 _
      subst h1
      simpa using ha

/-- `dropWhile` returns a suffix. -/
theorem dropWhile_isSuffix (p : Char → Bool) :
    ∀ l : List Char, ∃ u, l = u ++ l.dropWhile p := by
  intro l
  induction l with
  | nil => exact ⟨[], rfl⟩
  | cons c cs ih =>
    by_cases hc : p c = true
    · obtain ⟨u, hu⟩ := ih
      refine ⟨c :: u, ?_⟩
      rw [List.dropWhile_cons, if_pos hc]
      simpa using hu
    · refine ⟨[], ?_⟩
      rw [List.dropWhile_cons, if_neg hc]
      rfl

/-- `dropWhile` never lengthens a list. -/
theorem dropWhile_length_le (p : Char → Bool) :
    ∀ l : List Char, (l.dropWhile p).length ≤ l.length := by
  intro l
  induction l with
  | nil => simp
  | cons c cs ih =>
    by_cases hc : p c = true
    · rw [List.dropWhile_cons, if_pos hc]
      exact le_trans ih (Nat.le_succ _)
    · rw [List.dropWhile_cons, if_neg hc]

/-- The head of a trimmed string is not whitespace. -/
theorem trim_head (s : List Char) {c : Char} {t : List Char}
    (h : trim s = c :: t) : isSpaceChar c = false := by
  obtain ⟨u, hu⟩ := dropWhile_isSuffix isSpaceChar (s.dropWhile isSpaceChar).reverse
  have hrev : s.dropWhile isSpaceChar = trim s ++ u.reverse := by
    have := congrArg List.reverse hu
    simpa [trim] using this
  rw [h] at hrev
  exact dropWhile_head_false isSpaceChar s c (t ++ u.reverse) (by simpa using hrev)

/-- Trimming never lengthens a string. -/
theorem trim_length_le (s : List Char) : (trim s).length ≤ s.length := by
  unfold trim
  calc (((s.dropWhile isSpaceChar).reverse.dropWhile isSpaceChar).reverse).length
      = ((s.dropWhile isSpaceChar).reverse.dropWhile isSpaceChar).length := by
        rw [List.length_reverse]
    _ ≤ (s.dropWhile isSpaceChar).reverse.length := dropWhile_length_le _ _
    _ = (s.dropWhile isSpaceChar).length := by rw [List.length_reverse]
    _ ≤ s.length := dropWhile_length_le _ _

/-- The position found by `indexOfSpace` is inside the string. -/
theorem indexOfSpace_lt_length :
    ∀ (s : List Char) (pos : Nat), indexOfSpace s = some pos → pos < s.length := by
  intro s
  induction s with
  | nil => intro pos h; simp [indexOfSpace] at h
  | cons c cs ih =>
    intro pos h
    rw [indexOfSpace] at h
    by_cases hc : c = ' '
    · rw [if_pos hc] at h
      injection h with h
      subst h
      simp
    · rw [if_neg hc] at h
      cases hq : indexOfSpace cs with
      | some q =>
        rw [hq] at h
        simp only [Option.map_some'] at h
        injection h with h
        subst h
        simpa using ih q hq
      | none => rw [hq] at h; simp at h

/-- No space occurs before the position found by `indexOfSpace`. -/
theorem indexOfSpace_take :
    ∀ (s : List Char) (pos : Nat), indexOfSpace s = some pos → ' ' ∉ s.take pos := by
  intro s
  induction s with
  | nil => intro pos h; simp [indexOfSpace] at h
  | cons c cs ih =>
    intro pos h
    rw [indexOfSpace] at h
    by_cases hc : c = ' '
    · rw [if_pos hc] at h
      injection h with h
      subst h
      simp
    · rw [if_neg hc] at h
      cases hq : indexOfSpace cs with
      | some q =>
        rw [hq] at h
        simp only [Option.map_some'] at h
        injection h with h
        subst h
        intro hmem
        rw [List.take_succ_cons] at hmem
        rcases List.mem_cons.mp hmem with he | hmem
        · exact hc he.symm
        · exact ih q hq hmem
      | none => rw [hq] at h; simp at h

/-- `indexOfSpace` returning `none` means no space occurs at all. -/
theorem indexOfSpace_none_mem :
    ∀ s : List Char, indexOfSpace s = none → ' ' ∉ s := by
  intro s
  induction s with
  | nil => intro _; simp
  | cons c cs ih =>
    intro h
    rw [indexOfSpace] at h
    by_cases hc : c = ' '
    · rw [if_pos hc] at h; simp at h
    · rw [if_neg hc] at h
      intro hmem
      rcases List.mem_cons.mp hmem with he | hmem
      · exact hc he.symm
      · cases hq : indexOfSpace cs with
        | some q => rw [hq] at h; simp at h
        | none => exact ih hq hmem

/-- Reference tokenizer for the amended C7: the value-reading loop of
`analisarComando` with its 5-token capacity bound removed — repeatedly take
the text before the next space and fully re-trim what follows. -/
def spaceTrimTokens (s : List Char) : List (List Char) :=
  if _h : s.length = 0 then []
  else
    match indexOfSpace s with
    | some pos => s.take pos :: spaceTrimTokens (trim (s.drop (pos + 1)))
    | none => [s]
termination_by s.length
decreasing_by
  have h1 := trim_length_le (s.drop (pos + 1))
  have h2 : (s.drop (pos + 1)).length = s.length - (pos + 1) := by simp
  omega

/-- The bounded loop reads exactly the first `k` tokens of the unbounded
tokenizer. -/
theorem lerValores_eq_take : ∀ (n : Nat) (s : List Char), s.length ≤ n →
    ∀ k, lerValores k s = (spaceTrimTokens s).take k := by
  intro n
  induction n with
  | zero =>
    intro s hs k
    have he : s = [] := List.length_eq_zero.mp (Nat.le_zero.mp hs)
    subst he
    cases k <;> simp [lerValores, spaceTrimTokens]
  | succ n ih =>
    intro s hs k
    cases k with
    | zero => simp [lerValores]
    | succ k =>
      by_cases hz : s.length = 0
      · have he : s = [] := List.length_eq_zero.mp hz
        subst he
        simp [lerValores, spaceTrimTokens]
      · rw [spaceTrimTokens]
        rw [dif_neg hz]
        cases hpos : indexOfSpace s with
        | some pos =>
          have hlt := indexOfSpace_lt_length s pos hpos
          have hrec : (trim (s.drop (pos + 1))).length ≤ n := by
            have h1 := trim_length_le (s.drop (pos + 1))
            have h2 : (s.drop (pos + 1)).length = s.length - (pos + 1) := by simp
            omega
          simp only [lerValores, if_neg hz, hpos, List.take_succ_cons]
          rw [ih _ hrec k]
        | none =>
          simp [lerValores, if_neg hz, hpos]
          intro he
          exact hz (by simp [he])

/-- The value loop collects at most its capacity. -/
theorem lerValores_length_le : ∀ (k : Nat) (s : List Char),
    (lerValores k s).length ≤ k := by
  intro k
  induction k with
  | zero => intro s; simp [lerValores]
  | succ k ih =>
    intro s
    by_cases hz : s.length = 0
    · simp [lerValores, hz]
    · cases hpos : indexOfSpace s with
      | some pos =>
        simpa [lerValores, hz, hpos] using ih (trim (s.drop (pos + 1)))
      | none => simp [lerValores, hz, hpos]

/-- Every token the value loop collects from a string whose head is not
whitespace is nonempty and free of spaces. -/
theorem lerValores_tokens_wf : ∀ (k : Nat) (s : List Char),
    (∀ c t, s = c :: t → isSpaceChar c = false) →
    ∀ w ∈ lerValores k s, w ≠ [] ∧ ' ' ∉ w := by
  intro k
  induction k with
  | zero => intro s _ w hw; simp [lerValores] at hw
  | succ k ih =>
    intro s hhead w hw
    by_cases hz : s.length = 0
    · simp [lerValores, hz] at hw
    · cases s with
      | nil => simp at hz
      | cons c cs =>
        have hc : isSpaceChar c = false := hhead c cs rfl
        have hcsp : ¬c = ' ' := by
          intro he
          subst he
          simp [isSpaceChar] at hc
        cases hpos : indexOfSpace (c :: cs) with
        | some pos =>
          have hpos0 : 0 < pos := by
            rw [indexOfSpace, if_neg hcsp] at hpos
            cases hq : indexOfSpace cs with
            | some q =>
              rw [hq] at hpos
              simp only [Option.map_some'] at hpos
              injection hpos with hpos
              omega
            | none => rw [hq] at hpos; simp at hpos
          simp only [lerValores, if_neg hz, hpos] at hw
          rcases List.mem_cons.mp hw with hw | hw
          · subst hw
            refine ⟨?_, indexOfSpace_take _ _ hpos⟩
            cases pos with
            | zero => omega
            | succ q => simp
          · exact ih _ (fun c' t' he => trim_head _ he) w hw
        | none =>
          simp only [lerValores, if_neg hz, hpos, List.mem_singleton] at hw
          subst hw
          exact ⟨by simp, indexOfSpace_none_mem _ hpos⟩

/-- Reading a filled slot of the padded value array. -/
theorem padValores_getD_lt (ts : List (List Char)) (i : Nat)
    (hi : i < ts.length) : (padValores ts).getD i [] = ts.getD i [] :=
  List.getD_append ts _ [] i hi

/-- Reading an unfilled slot of the padded value array yields the empty
string. -/
theorem padValores_getD_ge (ts : List (List Char)) (i : Nat)
    (hi : ts.length ≤ i) : (padValores ts).getD i [] = [] := by
  unfold padValores
  by_cases hlt : i < ts.length + (maxValores - ts.length)
  · rw [List.getD_append_right ts _ [] i hi]
    have h2 : i - ts.length
        < (List.replicate (maxValores - ts.length) ([] : List Char)).length := by
      simp
      omega
    rw [List.getD_eq_getElem _ _ h2]
    exact List.getElem_replicate _ _
  · have hge : (ts ++ List.replicate (maxValores - ts.length)
        ([] : List Char)).length ≤ i := by
      simp
      omega
    exact List.getD_eq_default _ _ hge

/-- A space cannot be found at position 0 of a string starting with a
non-space character. -/
theorem indexOfSpace_head_pos (c : Char) (cs : List Char) (pos : Nat)
    (hc : ¬c = ' ') (h : indexOfSpace (c :: cs) = some pos) : 0 < pos := by
  rw [indexOfSpace, if_neg hc] at h
  cases hq : indexOfSpace cs with
  | some q =>
    rw [hq] at h
    simp only [Option.map_some'] at h
    injection h with h
    omega
  | none => rw [hq] at h; simp at h

/-- C8: every parse result is well-formed: the argument count is at most 5,
the value array has exactly 5 slots, every filled slot is a nonempty string
without spaces, every slot at or past the count is the empty string, and an
empty name comes only with a zero argument count. -/
theorem parse_wellformed (input : List Char) :
    (analisarComando input).numValores ≤ 5 ∧
    (analisarComando input).valores.length = 5 ∧
    (∀ i, i < (analisarComando input).numValores →
      (analisarComando input).valores.getD i [] ≠ [] ∧
      ' ' ∉ (analisarComando input).valores.getD i []) ∧
    (∀ i, (analisarComando input).numValores ≤ i →
      (analisarComando input).valores.getD i [] = []) ∧
    ((analisarComando input).nome = [] → (analisarComando input).numValores = 0) := by
  by_cases hz : (trim input).length = 0
  · have e : analisarComando input = ⟨[], padValores [], 0⟩ := by
      unfold analisarComando
      rw [if_pos hz]
    rw [e]
    refine ⟨by simp, by simp [padValores, maxValores], ?_, ?_, fun _ => rfl⟩
    · intro i hi
      simp at hi
    · intro i _
      exact padValores_getD_ge [] i (by simp)
  · cases hpos : indexOfSpace (trim input) with
    | some pos =>
      have e : analisarComando input = ⟨(trim input).take pos,
          padValores (lerValores maxValores (trim ((trim input).drop (pos + 1)))),
          (lerValores maxValores (trim ((trim input).drop (pos + 1)))).length⟩ := by
        unfold analisarComando
        rw [if_neg hz, hpos]
      have hlen5 : (lerValores maxValores (trim ((trim input).drop (pos + 1)))).length
          ≤ 5 := lerValores_length_le maxValores _
      rw [e]
      refine ⟨hlen5, by have h5 := hlen5; simp [padValores, maxValores] at h5 ⊢; omega, ?_, ?_, ?_⟩
      · intro i hi
        rw [padValores_getD_lt _ i hi]
        have hmem : (lerValores maxValores
            (trim ((trim input).drop (pos + 1)))).getD i []
            ∈ lerValores maxValores (trim ((trim input).drop (pos + 1))) := by
          rw [List.getD_eq_getElem _ _ hi]
          exact List.getElem_mem _
        exact lerValores_tokens_wf maxValores _
          (fun c t he => trim_head _ he) _ hmem
      · intro i hi
        exact padValores_getD_ge _ i hi
      · intro hnome
        exfalso
        cases ht : trim input with
        | nil => exact hz (by simp [ht])
        | cons c cs =>
          have hc : isSpaceChar c = false := trim_head input ht
          have hcsp : ¬c = ' ' := by
            intro he
            subst he
            simp [isSpaceChar] at hc
          have hp0 : 0 < pos := indexOfSpace_head_pos c cs pos hcsp (ht ▸ hpos)
          rw [ht] at hnome
          cases pos with
          | zero => omega
          | succ q => simp at hnome
    | none =>
      have e : analisarComando input = ⟨trim input, padValores [], 0⟩ := by
        unfold analisarComando
        rw [if_neg hz, hpos]
      rw [e]
      refine ⟨by simp, by simp [padValores, maxValores], ?_, ?_, fun _ => rfl⟩
      · intro i hi
        simp at hi
      · intro i _
        exact padValores_getD_ge [] i (by simp)

/-- Witness for `parse_wellformed` at a concrete over-long input. -/
theorem parse_wellformed_witness :
    (analisarComando (chars "cmd 1 2 3 4 5 6 7")).numValores ≤ 5 ∧
    (analisarComando (chars "cmd 1 2 3 4 5 6 7")).valores.getD 0 [] ≠ [] ∧
    (analisarComando (chars "cmd 1 2 3 4 5 6 7")).valores.getD 5 [] = [] :=
  ⟨(parse_wellformed (chars "cmd 1 2 3 4 5 6 7")).1,
   ((parse_wellformed (chars "cmd 1 2 3 4 5 6 7")).2.2.1 0 (by decide)).1,
   (parse_wellformed (chars "cmd 1 2 3 4 5 6 7")).2.2.2.1 5 (by decide)⟩

/-- C7 counterexample: in `"a\tb c"` the first whitespace is the tab at
index 1, but the parser splits the name at the first space character only,
so the name is `"a\tb"`, not `"a"` — "text before the first whitespace" is
not what the code computes. -/
theorem parse_tab_name_cex :
    (analisarComando (chars "a\tb c")).nome = chars "a\tb" ∧
    (analisarComando (chars "a\tb c")).nome ≠ chars "a" ∧
    (analisarComando (chars "a\tb c")).numValores = 1 :=
  ⟨rfl, by decide, rfl⟩

/-- A word free of whitespace characters. -/
def noWS (w : List Char) : Prop := ∀ c ∈ w, isSpaceChar c = false

instance (w : List Char) : Decidable (noWS w) :=
  inferInstanceAs (Decidable (∀ c ∈ w, isSpaceChar c = false))

/-- Join words with single separating spaces. -/
def joinSpace : List (List Char) → List Char
  | [] => []
  | w :: ws => w ++ if ws.isEmpty then [] else ' ' :: joinSpace ws

/-- A join of nonempty words is nonempty. -/
theorem joinSpace_ne_nil (w : List Char) (ws : List (List Char))
    (h : w ≠ []) : joinSpace (w :: ws) ≠ [] := by
  cases w with
  | nil => exact absurd rfl h
  | cons c t => simp [joinSpace]

/-- The reverse of a join of nonempty whitespace-free words starts with a
non-whitespace character. -/
theorem joinSpace_reverse_head : ∀ (ws : List (List Char)), ws ≠ [] →
    (∀ w ∈ ws, w ≠ [] ∧ noWS w) →
    ∃ c t, (joinSpace ws).reverse = c :: t ∧ isSpaceChar c = false := by
  intro ws
  induction ws with
  | nil => intro h _; exact absurd rfl h
  | cons w rest ih =>
    intro _ h
    obtain ⟨hne, hws⟩ := h w (by simp)
    cases hrest : rest with
    | nil =>
      subst hrest
      have hj : joinSpace [w] = w := by simp [joinSpace]
      rw [hj]
      cases hrev : w.reverse with
      | nil => exact absurd (by simpa using hrev) hne
      | cons c t =>
        refine ⟨c, t, rfl, ?_⟩
        have hc : c ∈ w := by
          have : c ∈ w.reverse := by rw [hrev]; simp
          simpa using this
        exact hws c hc
    | cons w2 rest2 =>
      subst hrest
      obtain ⟨c, t, hct, hc⟩ :=
        ih (by simp) (fun x hx => h x (List.mem_cons_of_mem _ hx))
      have hj : joinSpace (w :: w2 :: rest2) = w ++ ' ' :: joinSpace (w2 :: rest2) := by
        simp [joinSpace]
      refine ⟨c, t ++ ([' '] ++ w.reverse), ?_, hc⟩
      rw [hj, List.reverse_append, List.reverse_cons, hct]
      simp

/-- Trimming a join of nonempty whitespace-free words changes nothing. -/
theorem trim_joinSpace : ∀ (ws : List (List Char)),
    (∀ w ∈ ws, w ≠ [] ∧ noWS w) → trim (joinSpace ws) = joinSpace ws := by
  intro ws h
  cases hws : ws with
  | nil => rfl
  | cons w rest =>
    obtain ⟨hne, hnws⟩ := h w (by simp [hws])
    have hfront : (joinSpace (w :: rest)).dropWhile isSpaceChar
        = joinSpace (w :: rest) := by
      cases hw : w with
      | nil => exact absurd hw hne
      | cons c t =>
        subst hw
        have hc : isSpaceChar c = false := hnws c (by simp)
        have hform : joinSpace ((c :: t) :: rest)
            = c :: (t ++ if rest.isEmpty then [] else ' ' :: joinSpace rest) := rfl
        rw [hform, List.dropWhile_cons, if_neg (by simp [hc])]
    have hback : (joinSpace (w :: rest)).reverse.dropWhile isSpaceChar
        = (joinSpace (w :: rest)).reverse := by
      obtain ⟨c, t, hct, hc⟩ := joinSpace_reverse_head (w :: rest) (by simp)
        (fun x hx => h x (hws ▸ hx))
      rw [hct, List.dropWhile_cons, if_neg (by simp [hc])]
    unfold trim
    rw [hfront, hback, List.reverse_reverse]

/-- `indexOfSpace` finds no space in a whitespace-free word. -/
theorem indexOfSpace_noWS_none : ∀ (w : List Char), noWS w →
    indexOfSpace w = none := by
  intro w
  induction w with
  | nil => intro _; rfl
  | cons c t ih =>
    intro h
    have hc : isSpaceChar c = false := h c (by simp)
    have hcsp : ¬c = ' ' := by
      intro he
      subst he
      simp [isSpaceChar] at hc
    rw [indexOfSpace, if_neg hcsp, ih (fun x hx => h x (List.mem_cons_of_mem _ hx))]
    rfl

/-- `indexOfSpace` on a whitespace-free word followed by a space finds
exactly the end of the word. -/
theorem indexOfSpace_append_space : ∀ (w r : List Char), noWS w →
    indexOfSpace (w ++ ' ' :: r) = some w.length := by
  intro w
  induction w with
  | nil => intro r _; simp [indexOfSpace]
  | cons c t ih =>
    intro r h
    have hc : isSpaceChar c = false := h c (by simp)
    have hcsp : ¬c = ' ' := by
      intro he
      subst he
      simp [isSpaceChar] at hc
    rw [List.cons_append, indexOfSpace, if_neg hcsp,
        ih r (fun x hx => h x (List.mem_cons_of_mem _ hx))]
    rfl

/-- Taking exactly the length of a word from its append. -/
theorem take_len_append (w r : List Char) : (w ++ r).take w.length = w := by
  induction w with
  | nil => simp
  | cons c t ih => simp [ih]

/-- Dropping a word and its separating space from an append. -/
theorem drop_len_succ_append (w r : List Char) :
    (w ++ ' ' :: r).drop (w.length + 1) = r := by
  induction w with
  | nil => simp
  | cons c t ih => simp [ih]

/-- The unbounded tokenizer recovers the words of a join exactly. -/
theorem spaceTrimTokens_joinSpace : ∀ (ws : List (List Char)),
    (∀ w ∈ ws, w ≠ [] ∧ noWS w) → spaceTrimTokens (joinSpace ws) = ws := by
  intro ws
  induction ws with
  | nil =>
    intro _
    rw [spaceTrimTokens]
    rfl
  | cons w rest ih =>
    intro h
    obtain ⟨hne, hnws⟩ := h w (by simp)
    cases hrest : rest with
    | nil =>
      subst hrest
      have hj : joinSpace [w] = w := by simp [joinSpace]
      rw [hj, spaceTrimTokens, dif_neg (by simpa using hne),
          indexOfSpace_noWS_none w hnws]
    | cons w2 rest2 =>
      subst hrest
      have hj : joinSpace (w :: w2 :: rest2) = w ++ ' ' :: joinSpace (w2 :: rest2) := by
        simp [joinSpace]
      have hwords : ∀ x ∈ w2 :: rest2, x ≠ [] ∧ noWS x :=
        fun x hx => h x (List.mem_cons_of_mem _ hx)
      have hne2 : joinSpace (w2 :: rest2) ≠ [] :=
        joinSpace_ne_nil w2 rest2 (hwords w2 (by simp)).1
      rw [hj, spaceTrimTokens, dif_neg (by simp), indexOfSpace_append_space _ _ hnws]
      show List.take w.length (w ++ ' ' :: joinSpace (w2 :: rest2)) ::
          spaceTrimTokens (trim (List.drop (w.length + 1)
            (w ++ ' ' :: joinSpace (w2 :: rest2))))
          = w :: w2 :: rest2
      rw [take_len_append, drop_len_succ_append, trim_joinSpace _ hwords, ih hwords]

/-- C7 amended: the parser splits the name at the first space character of
the trimmed input (other whitespace does not split), and tokenizes the
re-trimmed remainder left to right — at each step taking the text before
the next space and fully re-trimming what follows — keeping at most the
first 5 tokens and silently dropping the rest; in particular, for any words
free of whitespace joined by single spaces, the name is the first word and
the arguments are exactly the first 5 of the remaining words, in order. -/
theorem parse_space_tokenization :
    (∀ input : List Char,
      (indexOfSpace (trim input) = none →
        (analisarComando input).nome = trim input ∧
        (analisarComando input).numValores = 0) ∧
      (∀ pos, indexOfSpace (trim input) = some pos →
        (analisarComando input).nome = (trim input).take pos ∧
        (analisarComando input).valores =
          padValores ((spaceTrimTokens (trim ((trim input).drop (pos + 1)))).take 5) ∧
        (analisarComando input).numValores =
          min 5 (spaceTrimTokens (trim ((trim input).drop (pos + 1)))).length)) ∧
    (∀ (nome : List Char) (ws : List (List Char)),
      nome ≠ [] → noWS nome → (∀ w ∈ ws, w ≠ [] ∧ noWS w) →
      analisarComando (joinSpace (nome :: ws)) =
        ⟨nome, padValores (ws.take 5), min 5 ws.length⟩) := by
  have hpart1 : ∀ input : List Char,
      (indexOfSpace (trim input) = none →
        (analisarComando input).nome = trim input ∧
        (analisarComando input).numValores = 0) ∧
      (∀ pos, indexOfSpace (trim input) = some pos →
        (analisarComando input).nome = (trim input).take pos ∧
        (analisarComando input).valores =
          padValores ((spaceTrimTokens (trim ((trim input).drop (pos + 1)))).take 5) ∧
        (analisarComando input).numValores =
          min 5 (spaceTrimTokens (trim ((trim input).drop (pos + 1)))).length) := by
    intro input
    by_cases hz : (trim input).length = 0
    · have ht : trim input = [] := List.length_eq_zero.mp hz
      have e : analisarComando input = ⟨[], padValores [], 0⟩ := by
        unfold analisarComando
        rw [if_pos hz]
      constructor
      · intro _
        rw [e, ht]
        exact ⟨rfl, rfl⟩
      · intro pos hpos
        rw [ht] at hpos
        simp [indexOfSpace] at hpos
    · constructor
      · intro hpos
        have e : analisarComando input = ⟨trim input, padValores [], 0⟩ := by
          unfold analisarComando
          rw [if_neg hz, hpos]
        rw [e]
        exact ⟨rfl, rfl⟩
      · intro pos hpos
        have e : analisarComando input = ⟨(trim input).take pos,
            padValores (lerValores maxValores (trim ((trim input).drop (pos + 1)))),
            (lerValores maxValores (trim ((trim input).drop (pos + 1)))).length⟩ := by
          unfold analisarComando
          rw [if_neg hz, hpos]
        have htoks : lerValores maxValores (trim ((trim input).drop (pos + 1)))
            = (spaceTrimTokens (trim ((trim input).drop (pos + 1)))).take 5 :=
          lerValores_eq_take _ _ le_rfl 5
        rw [e, htoks]
        exact ⟨rfl, rfl, List.length_take 5 _⟩
  refine ⟨hpart1, ?_⟩
  intro nome ws hne hnws hws
  have hall : ∀ w ∈ nome :: ws, w ≠ [] ∧ noWS w := by
    intro w hw
    rcases List.mem_cons.mp hw with hw | hw
    · subst hw
      exact ⟨hne, hnws⟩
    · exact hws w hw
  have htr : trim (joinSpace (nome :: ws)) = joinSpace (nome :: ws) :=
    trim_joinSpace _ hall
  have hz : ¬(trim (joinSpace (nome :: ws))).length = 0 := by
    rw [htr]
    simpa using joinSpace_ne_nil nome ws hne
  cases hwsc : ws with
  | nil =>
    subst hwsc
    have hj : joinSpace [nome] = nome := by simp [joinSpace]
    have hnone : indexOfSpace (trim (joinSpace [nome])) = none := by
      rw [htr, hj]
      exact indexOfSpace_noWS_none nome hnws
    have e : analisarComando (joinSpace [nome])
        = ⟨trim (joinSpace [nome]), padValores [], 0⟩ := by
      unfold analisarComando
      rw [if_neg hz, hnone]
    rw [e, htr, hj]
    simp
  | cons w2 rest2 =>
    subst hwsc
    have hj : joinSpace (nome :: w2 :: rest2)
        = nome ++ ' ' :: joinSpace (w2 :: rest2) := by
      simp [joinSpace]
    have hsome : indexOfSpace (trim (joinSpace (nome :: w2 :: rest2)))
        = some nome.length := by
      rw [htr, hj]
      exact indexOfSpace_append_space _ _ hnws
    have e : analisarComando (joinSpace (nome :: w2 :: rest2))
        = ⟨(trim (joinSpace (nome :: w2 :: rest2))).take nome.length,
           padValores (lerValores maxValores
             (trim ((trim (joinSpace (nome :: w2 :: rest2))).drop (nome.length + 1)))),
           (lerValores maxValores
             (trim ((trim (joinSpace (nome :: w2 :: rest2))).drop
               (nome.length + 1)))).length⟩ := by
      unfold analisarComando
      rw [if_neg hz, hsome]
    have hdrop : trim ((trim (joinSpace (nome :: w2 :: rest2))).drop (nome.length + 1))
        = joinSpace (w2 :: rest2) := by
      rw [htr, hj, drop_len_succ_append]
      exact trim_joinSpace _ hws
    have htoks : lerValores maxValores (joinSpace (w2 :: rest2))
        = (w2 :: rest2).take 5 := by
      rw [lerValores_eq_take _ _ le_rfl maxValores, spaceTrimTokens_joinSpace _ hws]
      rfl
    rw [e, hdrop, htoks, htr, hj, take_len_append, List.length_take]

/-- Witness for `parse_space_tokenization` at eight concrete words: the
name is the first word and exactly the first five arguments survive. -/
theorem parse_space_tokenization_witness :
    analisarComando (joinSpace [chars "cmd", chars "1", chars "2", chars "3",
        chars "4", chars "5", chars "6", chars "7"]) =
      ⟨chars "cmd", padValores ([chars "1", chars "2", chars "3", chars "4",
        chars "5", chars "6", chars "7"].take 5),
       min 5 [chars "1", chars "2", chars "3", chars "4", chars "5",
        chars "6", chars "7"].length⟩ :=
  parse_space_tokenization.2 (chars "cmd")
    [chars "1", chars "2", chars "3", chars "4", chars "5", chars "6", chars "7"]
    (by decide) (by decide) (by decide)
